import Mathlib

/-!
Verification development for the agentic-dev-team repository.

Shallow embedding of the three core components the design claims talk about:

* `PermissionManager` (src/agentic-dev-team/src/security/PermissionManager.ts):
  rule parsing, per-tool pattern matching, deny/allow/ask precedence and the
  default policy, with JavaScript exceptions modelled by `Except String`.
* `CostTracker` (src/agentic-dev-team/src/utils/CostTracker.ts): cost
  computation, message deduplication and additive aggregation.  Monetary
  amounts are modelled in `ℚ`.
* `TeamManager` (src/core/TeamManager.ts): session table, task execution,
  parallel execution and session teardown.  The external execution engine
  (the `query` call) is an out-of-scope collaborator; its terminal outcome
  for a task is threaded in as an explicit `EngineOutcome` oracle value.

Tool inputs in the source are untyped (`input: any`).  We model an input as
`Option InputObject`: `none` is JavaScript `null`/`undefined` (property access
on it throws a TypeError, which the permission evaluator's `try/catch`
converts into a deny decision), and `InputObject` carries the fields the
permission code actually reads plus the JSON serialization used by the
generic matcher.
-/

namespace Spec2Proof

/-! ## Generic string helpers (JavaScript string primitives) -/

/-- Does the list start with `needle`?  (`String.prototype.startsWith` on char
lists; needle first). -/
def listStartsWith : List Char → List Char → Bool
  | [], _ => true
  | _ :: _, [] => false
  | n :: ns, h :: hs => n = h && listStartsWith ns hs

/-- Does the list contain `needle` as a contiguous run?  Models
`String.prototype.includes`. -/
def listIncludes (needle : List Char) : List Char → Bool
  | [] => listStartsWith needle []
  | h :: hs => listStartsWith needle (h :: hs) || listIncludes needle hs

/-- `hay.includes(needle)` on strings. -/
def strIncludes (hay needle : String) : Bool :=
  listIncludes needle.toList hay.toList

/-- `s.startsWith(pre)` on strings. -/
def strStartsWith (s pre : String) : Bool :=
  listStartsWith pre.toList s.toList

/-- `s.endsWith(post)` on strings: the reversal starts with the reversed
suffix. -/
def strEndsWith (s post : String) : Bool :=
  listStartsWith post.toList.reverse s.toList.reverse

/-- `s.slice(0, -n)`: drop the last `n` characters. -/
def strDropRight (s : String) (n : ℕ) : String :=
  String.mk ((s.toList.reverse.drop n).reverse)

/-- Whitespace as matched by the `\s` class in the source's regular
expressions (the rare classes `\f`, `\v`, NBSP are not modelled; no rule or
claim distinguishes them). -/
def isJsSpace (c : Char) : Bool :=
  c = ' ' || c = '\t' || c = '\n' || c = '\r'

/-- Consume `\s+` at the front: at least one whitespace character, then skip
the maximal run.  Maximal munch is sound here because every literal that
follows `\s+` in the source's patterns starts with a non-space character. -/
def afterSpaces1 (cs : List Char) : Option (List Char) :=
  match cs with
  | [] => none
  | c :: rest => if isJsSpace c then some (rest.dropWhile isJsSpace) else none

/-! ## PermissionManager: dangerous-command signatures

`matchesBashRule` keeps a fixed list of regular expressions for inherently
dangerous commands.  Each is implemented directly as a char-list matcher.
(JavaScript's `.` does not cross line terminators; the gap scans below do,
a difference only observable on multi-line commands, which no rule set or
claim exercises.) -/

/-- Regex `/^rm\s+-rf\s+\//`: anchored at the start. -/
def rmRfRootMatch (cs : List Char) : Bool :=
  listStartsWith "rm".toList cs &&
    match afterSpaces1 (cs.drop 2) with
    | none => false
    | some cs1 =>
      listStartsWith "-rf".toList cs1 &&
        match afterSpaces1 (cs1.drop 3) with
        | none => false
        | some cs2 => listStartsWith "/".toList cs2

/-- Scan for `\|\s*sh`: a pipe character followed by optional whitespace and
then `sh`. -/
def pipeThenSh : List Char → Bool
  | [] => false
  | c :: rest =>
    (c = '|' && listStartsWith "sh".toList (rest.dropWhile isJsSpace)) || pipeThenSh rest

/-- Regex `/curl.*\|\s*sh/` (and the `wget` twin): the literal `lit`
anywhere, followed later by a pipe into `sh`. -/
def litThenPipeSh (lit : List Char) : List Char → Bool
  | [] => false
  | c :: rest =>
    (listStartsWith lit (c :: rest) && pipeThenSh ((c :: rest).drop lit.length)) ||
      litThenPipeSh lit rest

/-- Regex `w1\s+w2` searched anywhere (used for `/sudo\s+rm/` and
`/dd\s+if=/`). -/
def litSpacesLit (w1 w2 : List Char) : List Char → Bool
  | [] => false
  | c :: rest =>
    (listStartsWith w1 (c :: rest) &&
      match afterSpaces1 ((c :: rest).drop w1.length) with
      | none => false
      | some cs1 => listStartsWith w2 cs1) ||
      litSpacesLit w1 w2 rest

/-- Fork-bomb signature `:\(\)\{ :\|:& \};:` — a literal substring match. -/
def forkBombChars : List Char := ":()\x7b :|:& \x7d;:".toList

/-- `dangerousPatterns.some(p => p.test(command))` from `matchesBashRule`. -/
def matchesDangerousPattern (cmd : String) : Bool :=
  let cs := cmd.toList
  rmRfRootMatch cs ||
  litThenPipeSh "curl".toList cs ||
  litThenPipeSh "wget".toList cs ||
  litSpacesLit "sudo".toList "rm".toList cs ||
  litSpacesLit "dd".toList "if=".toList cs ||
  listIncludes forkBombChars cs

/-! ## PermissionManager: glob and wildcard matchers -/

/-- Anchored matcher for the regex built by `globToRegex`: the pattern's `.`
is escaped to a literal dot, `*` becomes `.*` (any run), `?` becomes `.`
(any one character), everything else is literal, and the whole regex is
anchored with `^...$`. -/
def globMatch : List Char → List Char → Bool
  | [], [] => true
  | [], _ :: _ => false
  | '*' :: ps, [] => globMatch ps []
  | '*' :: ps, c :: cs => globMatch ps (c :: cs) || globMatch ('*' :: ps) cs
  | '?' :: _, [] => false
  | '?' :: ps, _ :: cs => globMatch ps cs
  | _ :: _, [] => false
  | p :: ps, c :: cs => p = c && globMatch ps cs
  termination_by ps cs => (ps.length, cs.length)

/-- Prefix matcher for the unanchored regexes built by `matchesUrlRule` and
`matchesGenericPattern` (`pattern.replace(/\*/g, '.*')`): `*` is any run,
`.` is regex-dot (any one character), everything else literal; the end is
unanchored, so an exhausted pattern succeeds on any remainder. -/
def rxCore : List Char → List Char → Bool
  | [], _ => true
  | '*' :: ps, [] => rxCore ps []
  | '*' :: ps, c :: cs => rxCore ps (c :: cs) || rxCore ('*' :: ps) cs
  | '.' :: _, [] => false
  | '.' :: ps, _ :: cs => rxCore ps cs
  | _ :: _, [] => false
  | p :: ps, c :: cs => p = c && rxCore ps cs
  termination_by ps cs => (ps.length, cs.length)

/-- Unanchored `RegExp.prototype.test`: search for a match at any position. -/
def rxSearch (ps : List Char) : List Char → Bool
  | [] => rxCore ps []
  | c :: cs => rxCore ps (c :: cs) || rxSearch ps cs

/-! ## PermissionManager: data model -/

/-- Priority of a task/permission context (`'low' | 'medium' | 'high' |
'critical'`). -/
inductive Priority where
  | low | medium | high | critical
deriving DecidableEq, Repr

/-- Fields of a tool-use input object that the permission code reads.
`serialized` stands for `JSON.stringify` of the full object (the object may
carry properties beyond the three the matchers read). -/
structure InputObject where
  command : Option String := none
  file_path : Option String := none
  url : Option String := none
  serialized : String := ""
deriving DecidableEq, Repr

/-- `JSON.stringify(input)` for a possibly-null input. -/
def jsonStringify (input : Option InputObject) : String :=
  match input with
  | none => "null"
  | some o => o.serialized

/-- The TypeError raised by a property read on a null input. -/
def nullReadError (propName : String) : String :=
  "Cannot read properties of null (reading " ++ propName ++ ")"

/-- Interface `PermissionContext`. -/
structure PermissionContext where
  toolName : String
  input : Option InputObject
  memberId : Option String := none
  sessionId : Option String := none
  priority : Option Priority := none
deriving DecidableEq, Repr

/-- Verdict component of `PermissionResult` (`'allow' | 'deny'`). -/
inductive PermBehavior where
  | allow | deny
deriving DecidableEq, Repr

/-- Interface `PermissionResult`.  (`updatedPermissions` is declared in the
source interface but never assigned anywhere, so it is omitted.) -/
structure PermissionResult where
  behavior : PermBehavior
  updatedInput : Option (Option InputObject) := none
  message : Option String := none
  interrupt : Option Bool := none
deriving DecidableEq, Repr

/-- Interface `PermissionRules`: the three rule buckets. -/
structure PermissionRules where
  allow : List String
  deny : List String
  ask : List String
deriving DecidableEq, Repr

/-! ## PermissionManager: rule parsing and matching -/

/-- Parse of the rule format regex `/^([^(]+)(?:\(([^)]*)\))?$/`: a non-empty
run of non-`(` characters, optionally followed by a parenthesised pattern
whose body contains no `)`.  Returns `(ruleToolName, rulePattern)`. -/
def parseRule (rule : String) : Option (String × Option String) :=
  let cs := rule.toList
  let front := cs.takeWhile (· ≠ '(')
  let rest := cs.dropWhile (· ≠ '(')
  if front.isEmpty then none
  else
    match rest with
    | [] => some (String.mk front, none)
    | _ :: mid =>
      match mid.getLast? with
      | some ')' =>
        let inner := mid.dropLast
        if inner.contains ')' then none
        else some (String.mk front, some (String.mk inner))
      | _ => none

/-- `PermissionManager.matchesBashRule`. -/
def matchesBashRule (pat : String) (command : Option String) : Bool :=
  match command with
  | none => false
  | some cmd =>
    if cmd = "" then false
    else if strEndsWith pat ":*" then strStartsWith cmd (strDropRight pat 2)
    else if pat = cmd then true
    else pat = "dangerous" && matchesDangerousPattern cmd

/-- `PermissionManager.matchesFileRule` (falsy file path never matches;
otherwise the glob, anchored over the whole path). -/
def matchesFileRule (pat : String) (filePath : Option String) : Bool :=
  match filePath with
  | none => false
  | some p => if p = "" then false else globMatch pat.toList p.toList

/-- `PermissionManager.matchesUrlRule`. -/
def matchesUrlRule (pat : String) (url : Option String) : Bool :=
  match url with
  | none => false
  | some u =>
    if u = "" then false
    else if strIncludes pat "*" then rxSearch pat.toList u.toList
    else strIncludes u pat

/-- `PermissionManager.matchesGenericPattern`. -/
def matchesGenericPattern (pat : String) (text : String) : Bool :=
  if strIncludes pat "*" then rxSearch pat.toList text.toList
  else strIncludes text pat

/-- `PermissionManager.matchesRule`.  Property reads on a null input throw,
hence the `Except` result. -/
def matchesRule (rule : String) (toolName : String) (input : Option InputObject) :
    Except String Bool :=
  match parseRule rule with
  | none => .ok false
  | some (ruleToolName, rulePat) =>
    if ruleToolName ≠ toolName ∧ ruleToolName ≠ "*" then .ok false
    else
      match rulePat with
      | none => .ok true
      | some pat =>
        if toolName = "Bash" then
          match input with
          | none => .error (nullReadError "command")
          | some obj => .ok (matchesBashRule pat obj.command)
        else if toolName = "Read" ∨ toolName = "Write" ∨ toolName = "Edit" then
          match input with
          | none => .error (nullReadError "file_path")
          | some obj => .ok (matchesFileRule pat obj.file_path)
        else if toolName = "WebFetch" then
          match input with
          | none => .error (nullReadError "url")
          | some obj => .ok (matchesUrlRule pat obj.url)
        else
          .ok (matchesGenericPattern pat (jsonStringify input))

/-- `PermissionManager.isCriticalRule`: substring test against four fixed
critical signatures. -/
def isCriticalRule (rule : String) : Bool :=
  strIncludes rule "Bash(rm -rf" ||
  strIncludes rule "Bash(dangerous)" ||
  strIncludes rule "Write(.env)" ||
  strIncludes rule "Write(./secrets/"

/-- Result of `checkDenyRules`: the first matching deny rule and its
criticality classification. -/
structure DenyMatch where
  rule : String
  critical : Bool
deriving DecidableEq, Repr

/-- `PermissionManager.checkDenyRules`: first matching rule wins. -/
def checkDenyRules : List String → String → Option InputObject →
    Except String (Option DenyMatch)
  | [], _, _ => .ok none
  | r :: rest, toolName, input =>
    match matchesRule r toolName input with
    | .error e => .error e
    | .ok true => .ok (some ⟨r, isCriticalRule r⟩)
    | .ok false => checkDenyRules rest toolName input

/-- `PermissionManager.checkAllowRules` (the source never sets
`modifiedInput`, so the match carries only the rule). -/
def checkAllowRules : List String → String → Option InputObject →
    Except String (Option String)
  | [], _, _ => .ok none
  | r :: rest, toolName, input =>
    match matchesRule r toolName input with
    | .error e => .error e
    | .ok true => .ok (some r)
    | .ok false => checkAllowRules rest toolName input

/-- `PermissionManager.checkAskRules`. -/
def checkAskRules : List String → String → Option InputObject →
    Except String (Option String)
  | [], _, _ => .ok none
  | r :: rest, toolName, input =>
    match matchesRule r toolName input with
    | .error e => .error e
    | .ok true => .ok (some r)
    | .ok false => checkAskRules rest toolName input

/-- Safe read-only tools of `applyDefaultPolicy`. -/
def safeDevelopmentTools : List String :=
  ["Read", "Grep", "Glob", "TodoWrite", "ListMcpResources", "ReadMcpResource"]

/-- Editing tools of `applyDefaultPolicy`. -/
def editingTools : List String := ["Write", "Edit", "MultiEdit"]

/-- Safe bash commands of `applyDefaultPolicy`. -/
def safeCommands : List String :=
  ["ls", "pwd", "echo", "cat", "head", "tail", "grep", "find"]

/-- `PermissionManager.applyDefaultPolicy`.  Property reads on a null input
throw, hence the `Except` result. -/
def applyDefaultPolicy (ctx : PermissionContext) : Except String PermissionResult :=
  if safeDevelopmentTools.contains ctx.toolName then
    .ok { behavior := .allow }
  else if editingTools.contains ctx.toolName then
    match ctx.input with
    | none => .error (nullReadError "file_path")
    | some obj =>
      match obj.file_path with
      | some p =>
        if p ≠ "" ∧ strIncludes p "/workspace/" then .ok { behavior := .allow }
        else .ok { behavior := .deny,
                   message := some "File editing outside workspace requires explicit permission" }
      | none =>
        .ok { behavior := .deny,
              message := some "File editing outside workspace requires explicit permission" }
  else if ctx.toolName = "Bash" then
    match ctx.input with
    | none => .error (nullReadError "command")
    | some obj =>
      let firstWord : Option String := obj.command.map (fun c => (c.splitOn " ").headD "")
      if (firstWord.map safeCommands.contains).getD false then
        .ok { behavior := .allow }
      else if ctx.priority = some .critical ∨ ctx.priority = some .high then
        .ok { behavior := .allow,
              message := some "Bash command approved due to high priority" }
      else
        .ok { behavior := .deny,
              message := some "Bash command requires explicit permission" }
  else
    .ok { behavior := .deny,
          message := some ("Tool " ++ ctx.toolName ++ " not in allowed list") }

/-- Body of the `try` block of `PermissionManager.evaluatePermission`:
deny rules, then allow rules, then ask rules, then the default policy. -/
def evaluatePermissionBody (rules : PermissionRules) (ctx : PermissionContext) :
    Except String PermissionResult :=
  match checkDenyRules rules.deny ctx.toolName ctx.input with
  | .error e => .error e
  | .ok (some denyMatch) =>
    .ok { behavior := .deny,
          message := some ("Tool use denied by rule: " ++ denyMatch.rule),
          interrupt := some denyMatch.critical }
  | .ok none =>
    match checkAllowRules rules.allow ctx.toolName ctx.input with
    | .error e => .error e
    | .ok (some _) =>
      .ok { behavior := .allow, updatedInput := some ctx.input }
    | .ok none =>
      match checkAskRules rules.ask ctx.toolName ctx.input with
      | .error e => .error e
      | .ok (some askRule) =>
        .ok { behavior := .allow,
              message := some ("Tool approved (would normally ask): " ++ askRule) }
      | .ok none => applyDefaultPolicy ctx

/-- `PermissionManager.evaluatePermission`: the `catch` converts any thrown
error into a fail-safe deny carrying the error message. -/
def evaluatePermission (rules : PermissionRules) (ctx : PermissionContext) :
    PermissionResult :=
  match evaluatePermissionBody rules ctx with
  | .ok r => r
  | .error e =>
    { behavior := .deny,
      message := some ("Permission evaluation error: " ++ e) }

/-! ## CostTracker (src/agentic-dev-team/src/utils/CostTracker.ts)

Monetary amounts are rationals.  The `UsageData` interface declares
`input_tokens`/`output_tokens` required, but the code routinely passes empty
objects (`usage: any = {}` in `TeamManager.executeTask`, the `{}` fold seed
for `totalUsage`) and `aggregateUsage` guards every read with `|| 0`, so all
counters are modelled optional.  An absent counter reads as 0 in
`calculateCost` (JavaScript would produce `NaN` on the two unguarded reads
there; that is the one deviation, and no rule set or claim exercises it). -/

/-- Interface `UsageData`. -/
structure UsageData where
  input_tokens : Option ℕ := none
  output_tokens : Option ℕ := none
  cache_creation_input_tokens : Option ℕ := none
  cache_read_input_tokens : Option ℕ := none
  total_cost_usd : Option ℚ := none
deriving DecidableEq, Repr

/-- Rate table `PRICING` of `CostTracker` (USD per 1,000 tokens). -/
structure Pricing where
  input_tokens_per_1k : ℚ
  output_tokens_per_1k : ℚ
  cache_creation_per_1k : ℚ
  cache_read_per_1k : ℚ

/-- The pricing constants of the source. -/
def PRICING : Pricing :=
  { input_tokens_per_1k := 0.00003
    output_tokens_per_1k := 0.00015
    cache_creation_per_1k := 0.000375
    cache_read_per_1k := 0.0000075 }

/-- `CostTracker.calculateCost`: weighted sum over the four counters. -/
def calculateCost (usage : UsageData) : ℚ :=
  let inputCost := ((usage.input_tokens.getD 0 : ℚ) / 1000) * PRICING.input_tokens_per_1k
  let outputCost := ((usage.output_tokens.getD 0 : ℚ) / 1000) * PRICING.output_tokens_per_1k
  let cacheCreationCost :=
    ((usage.cache_creation_input_tokens.getD 0 : ℚ) / 1000) * PRICING.cache_creation_per_1k
  let cacheReadCost :=
    ((usage.cache_read_input_tokens.getD 0 : ℚ) / 1000) * PRICING.cache_read_per_1k
  inputCost + outputCost + cacheCreationCost + cacheReadCost

/-- `CostTracker.aggregateUsage`: fieldwise `|| 0` sums, with the combined
cost recomputed on the summed counters. -/
def aggregateUsage (current newUsage : UsageData) : UsageData :=
  let it := current.input_tokens.getD 0 + newUsage.input_tokens.getD 0
  let ot := current.output_tokens.getD 0 + newUsage.output_tokens.getD 0
  let cc := current.cache_creation_input_tokens.getD 0 +
    newUsage.cache_creation_input_tokens.getD 0
  let cr := current.cache_read_input_tokens.getD 0 +
    newUsage.cache_read_input_tokens.getD 0
  { input_tokens := some it
    output_tokens := some ot
    cache_creation_input_tokens := some cc
    cache_read_input_tokens := some cr
    total_cost_usd := some (calculateCost
      { input_tokens := some it
        output_tokens := some ot
        cache_creation_input_tokens := some cc
        cache_read_input_tokens := some cr }) }

/-- Interface `StepUsage`: one ledger entry. -/
structure StepUsage where
  messageId : String
  timestamp : String
  usage : UsageData
  costUSD : ℚ
deriving DecidableEq, Repr

/-- An engine message as seen by `processMessage`: its tag, identity and
optional usage payload (`none` models a missing/null `usage`). -/
structure Message where
  type : String
  id : String
  usage : Option UsageData
deriving DecidableEq, Repr

/-- State of a `CostTracker`: the dedup set and the append-only ledger. -/
structure CostTracker where
  processedMessageIds : List String := []
  stepUsages : List StepUsage := []
deriving DecidableEq, Repr

/-- `CostTracker.processMessage`.  `now` stands for
`new Date().toISOString()`, an environment input.  Returns the updated
tracker and the recorded entry (`none` = the source's `null`). -/
def CostTracker.processMessage (ct : CostTracker) (now : String) (message : Message) :
    CostTracker × Option StepUsage :=
  if message.type ≠ "assistant" then (ct, none)
  else
    match message.usage with
    | none => (ct, none)
    | some u =>
      if message.id ∈ ct.processedMessageIds then (ct, none)
      else
        let stepUsage : StepUsage :=
          { messageId := message.id
            timestamp := now
            usage := u
            costUSD := calculateCost u }
        ({ processedMessageIds := ct.processedMessageIds ++ [message.id]
           stepUsages := ct.stepUsages ++ [stepUsage] },
         some stepUsage)

/-- `CostTracker.getTotalCost`: left fold of `costUSD` over the ledger. -/
def CostTracker.getTotalCost (ct : CostTracker) : ℚ :=
  ct.stepUsages.foldl (fun total step => total + step.costUSD) 0

/-- `CostTracker.getTotalUsage`: left fold of `aggregateUsage` over the
ledger, seeded with the all-zero usage literal of the source. -/
def CostTracker.getTotalUsage (ct : CostTracker) : UsageData :=
  ct.stepUsages.foldl (fun total step => aggregateUsage total step.usage)
    { input_tokens := some 0
      output_tokens := some 0
      cache_creation_input_tokens := some 0
      cache_read_input_tokens := some 0
      total_cost_usd := some 0 }

/-! ## TeamManager (src/core/TeamManager.ts)

The execution engine (`query`) is an external collaborator: per the design,
it terminates with one success-or-failure terminal record.  Its outcome for
a task is an explicit `EngineOutcome` oracle parameter; the engine-generated
`taskId` (from `Date.now()` and `Math.random()`) and the wall-clock duration
are likewise environment inputs and appear as parameters.  The task's
description/member configuration only shape the directive sent to the
engine, i.e. they are absorbed by the outcome oracle. -/

/-- Task kinds (`TaskRequest.type`). -/
inductive TaskType where
  | analysis | implementation | review | testing | deployment | debugging
deriving DecidableEq, Repr

/-- Statuses of a `TaskResult`. -/
inductive TaskStatus where
  | completed | failed | in_progress
deriving DecidableEq, Repr

/-- Interface `TaskRequest`. -/
structure TaskRequest where
  type : TaskType
  description : String
  assignedTo : Option String := none
  priority : Priority
  files : Option (List String) := none
  dependencies : Option (List String) := none
deriving DecidableEq, Repr

/-- Interface `TeamMember`. -/
structure TeamMember where
  id : String
  name : String
  role : String
  specialization : List String
  permissions : List String
  systemPrompt : String
  outputStyle : Option String := none
deriving DecidableEq, Repr

/-- Interface `TaskResult`. -/
structure TaskResult where
  taskId : String
  status : TaskStatus
  result : Option String := none
  artifacts : Option (List String) := none
  usage : Option UsageData := none
  cost : Option ℚ := none
  duration : Option ℕ := none
deriving DecidableEq, Repr

/-- Interface `TeamSession` (`startTime` is a timestamp string). -/
structure TeamSession where
  id : String
  name : String
  startTime : String
  workspace : String
  activeMembers : List String
  currentTasks : List TaskRequest
  completedTasks : List TaskResult
  totalCost : ℚ
  totalUsage : UsageData
deriving DecidableEq, Repr

/-- Terminal outcome of one engine invocation for one task.  `success` is the
terminal result record (it also covers a stream that ends without a terminal
record: `result := ""`, `usage := {}`); `failure` is any error thrown by the
engine or during directive construction. -/
inductive EngineOutcome where
  | success (result : String) (usage : UsageData) (duration : ℕ)
  | failure (errMessage : String)
deriving DecidableEq, Repr

/-- `TeamManager.executeTask` on an already-fetched session.  On success the
task result is appended to `completedTasks` and the session totals are
folded; on failure the catch block only builds and returns the failed
result — the session is left untouched. -/
def executeTask (session : TeamSession) (taskId : String) (outcome : EngineOutcome) :
    TeamSession × TaskResult :=
  match outcome with
  | .success result usage duration =>
    let taskResult : TaskResult :=
      { taskId := taskId
        status := .completed
        result := some result
        usage := some usage
        cost := some (calculateCost usage)
        duration := some duration }
    ({ session with
        completedTasks := session.completedTasks ++ [taskResult]
        totalCost := session.totalCost + taskResult.cost.getD 0
        totalUsage := aggregateUsage session.totalUsage usage },
     taskResult)
  | .failure errMessage =>
    (session,
     { taskId := taskId
       status := .failed
       result := some ("Task failed: " ++ errMessage) })

/-- The live session table `activeSessions : Map<string, TeamSession>`. -/
abbrev SessionTable := List (String × TeamSession)

/-- `Map.get`. -/
def SessionTable.get : SessionTable → String → Option TeamSession
  | [], _ => none
  | (k, v) :: rest, sid => if k = sid then some v else SessionTable.get rest sid

/-- `Map.set`: replace the bound value, or append a fresh binding. -/
def SessionTable.set : SessionTable → String → TeamSession → SessionTable
  | [], sid, s => [(sid, s)]
  | (k, v) :: rest, sid, s =>
    if k = sid then (sid, s) :: rest else (k, v) :: SessionTable.set rest sid s

/-- `Map.delete`. -/
def SessionTable.delete : SessionTable → String → SessionTable
  | [], _ => []
  | (k, v) :: rest, sid =>
    if k = sid then SessionTable.delete rest sid else (k, v) :: SessionTable.delete rest sid

/-- The fresh session literal of `TeamManager.startTeamSession`. -/
def newSession (id sessionName startTime workspace : String) : TeamSession :=
  { id := id
    name := sessionName
    startTime := startTime
    workspace := workspace
    activeMembers := []
    currentTasks := []
    completedTasks := []
    totalCost := 0
    totalUsage := {} }

/-- `TeamManager.startTeamSession` (`sid` stands for the generated session
identifier, `startTime` for `new Date()`). -/
def startTeamSession (tbl : SessionTable) (sid sessionName startTime workspace : String) :
    SessionTable :=
  tbl.set sid (newSession sid sessionName startTime workspace)

/-- `TeamManager.assignTask`: throws on an unknown session; otherwise records
the assignment on the session (`currentTasks`/`activeMembers` pushes), runs
the task and returns its id.  `member` stands for the deterministic
`selectTeamMember` choice. -/
def assignTask (tbl : SessionTable) (sid : String) (task : TaskRequest)
    (member : TeamMember) (taskId : String) (outcome : EngineOutcome) :
    Except String (SessionTable × String) :=
  match tbl.get sid with
  | none => .error ("Session " ++ sid ++ " not found")
  | some session =>
    let task' := { task with assignedTo := some member.id }
    let session1 := { session with
      currentTasks := session.currentTasks ++ [task']
      activeMembers := session.activeMembers ++ [member.id] }
    let res := executeTask session1 taskId outcome
    .ok ((tbl.set sid session1).set sid res.1, res.2.taskId)

/-- `TeamManager.executeParallelTasks`: throws on an unknown session, then
runs every task; each task settles on its own and the results are returned
in input order.  Each job is the task's generated identifier paired with its
engine outcome.  The per-task step re-fetches the session from the table,
runs the task and writes the updated session back.  (The `none` fallback arm
is unreachable: the session stays in the table throughout; in JavaScript a
vanished session would raise inside the `try` and still settle that task as
failed.) -/
def parallelStep (sid : String) (acc : SessionTable × List TaskResult)
    (job : String × EngineOutcome) : SessionTable × List TaskResult :=
  match acc.1.get sid with
  | some session =>
    let res := executeTask session job.1 job.2
    (acc.1.set sid res.1, acc.2 ++ [res.2])
  | none =>
    let phantom : TaskResult :=
      { taskId := job.1
        status := .failed
        result := some "Task failed: Cannot read properties of undefined" }
    (acc.1, acc.2 ++ [phantom])

/-- `TeamManager.executeParallelTasks`: throws on an unknown session, then
folds `parallelStep` over the jobs; the results are collected in input
order. -/
def executeParallelTasks (tbl : SessionTable) (sid : String)
    (jobs : List (String × EngineOutcome)) :
    Except String (List TaskResult × SessionTable) :=
  match tbl.get sid with
  | none => .error ("Session " ++ sid ++ " not found")
  | some _ =>
    let folded := jobs.foldl (parallelStep sid) (tbl, [])
    .ok (folded.2, folded.1)

/-- `TeamManager.getSessionStatus`: `activeSessions.get(sessionId) || null`. -/
def getSessionStatus (tbl : SessionTable) (sid : String) : Option TeamSession :=
  tbl.get sid

/-- `TeamManager.endSession`: throws on an unknown session; otherwise emits
the session report (I/O to the report sink, out of scope) and evicts the
session from the live table. -/
def endSession (tbl : SessionTable) (sid : String) : Except String SessionTable :=
  match tbl.get sid with
  | none => .error ("Session " ++ sid ++ " not found")
  | some _ => .ok (tbl.delete sid)

/-! ## Specification-side measures and reachability -/

/-- Sum of the `cost` fields of a completed-task list, a missing cost
counting as zero (the design invariant's left-hand measure). -/
def sumCosts (l : List TaskResult) : ℚ :=
  (l.map (fun r => r.cost.getD 0)).sum

/-- Additive fold of the usage of each completed task (the design
invariant's usage measure), seeded with the empty usage the session starts
with; a task without usage contributes nothing. -/
def foldUsage (l : List TaskResult) : UsageData :=
  l.foldl (fun acc r => match r.usage with | some u => aggregateUsage acc u | none => acc) {}

/-- The per-task result component of `executeTask`; it does not depend on
the session (see `executeTask_snd`). -/
def jobResult (taskId : String) (outcome : EngineOutcome) : TaskResult :=
  match outcome with
  | .success result usage duration =>
    { taskId := taskId
      status := .completed
      result := some result
      usage := some usage
      cost := some (calculateCost usage)
      duration := some duration }
  | .failure errMessage =>
    { taskId := taskId
      status := .failed
      result := some ("Task failed: " ++ errMessage) }

/-- Session tables reachable by sequences of orchestrator operations:
starting from the empty table via `startTeamSession`, `assignTask`,
`executeParallelTasks` and `endSession`. -/
inductive ReachableTable : SessionTable → Prop where
  | empty : ReachableTable []
  | start {tbl : SessionTable} (sid sessionName startTime workspace : String) :
      ReachableTable tbl →
      ReachableTable (startTeamSession tbl sid sessionName startTime workspace)
  | assign {tbl tbl' : SessionTable} {rid : String} (sid : String) (task : TaskRequest)
      (member : TeamMember) (taskId : String) (outcome : EngineOutcome) :
      ReachableTable tbl →
      assignTask tbl sid task member taskId outcome = .ok (tbl', rid) →
      ReachableTable tbl'
  | parallel {tbl tbl' : SessionTable} {rs : List TaskResult} (sid : String)
      (jobs : List (String × EngineOutcome)) :
      ReachableTable tbl →
      executeParallelTasks tbl sid jobs = .ok (rs, tbl') →
      ReachableTable tbl'
  | ended {tbl tbl' : SessionTable} (sid : String) :
      ReachableTable tbl →
      endSession tbl sid = .ok tbl' →
      ReachableTable tbl'

/-! ## Lemmas: session table -/

/-- Reading back the key just written. -/
theorem get_set_self (tbl : SessionTable) (k : String) (v : TeamSession) :
    (tbl.set k v).get k = some v := by
  induction tbl with
  | nil => simp [SessionTable.set, SessionTable.get]
  | cons hd tl ih =>
    obtain ⟨k', v'⟩ := hd
    by_cases hk : k' = k
    · simp [SessionTable.set, SessionTable.get, hk]
    · simp [SessionTable.set, SessionTable.get, hk, ih]

/-- Writing one key leaves the others unchanged. -/
theorem get_set_ne (tbl : SessionTable) (k sid : String) (v : TeamSession)
    (h : sid ≠ k) : (tbl.set k v).get sid = tbl.get sid := by
  induction tbl with
  | nil => simp [SessionTable.set, SessionTable.get, Ne.symm h]
  | cons hd tl ih =>
    obtain ⟨k', v'⟩ := hd
    by_cases hk : k' = k
    · subst hk
      simp [SessionTable.set, SessionTable.get, Ne.symm h]
    · simp [SessionTable.set, SessionTable.get, hk, ih]

/-- A deleted key reads as absent. -/
theorem get_delete_self (tbl : SessionTable) (k : String) :
    (tbl.delete k).get k = none := by
  induction tbl with
  | nil => simp [SessionTable.delete, SessionTable.get]
  | cons hd tl ih =>
    obtain ⟨k', v'⟩ := hd
    by_cases hk : k' = k
    · simp [SessionTable.delete, SessionTable.get, hk, ih]
    · simp [SessionTable.delete, SessionTable.get, hk, ih]

/-- Deleting one key leaves the others unchanged. -/
theorem get_delete_ne (tbl : SessionTable) (k sid : String) (h : sid ≠ k) :
    (tbl.delete k).get sid = tbl.get sid := by
  induction tbl with
  | nil => simp [SessionTable.delete, SessionTable.get]
  | cons hd tl ih =>
    obtain ⟨k', v'⟩ := hd
    by_cases hk : k' = k
    · subst hk
      simp [SessionTable.delete, SessionTable.get, Ne.symm h, ih]
    · simp [SessionTable.delete, SessionTable.get, hk, ih]

/-! ## Lemmas: task execution -/

/-- The result component of `executeTask` does not depend on the session. -/
theorem executeTask_snd (s : TeamSession) (taskId : String) (o : EngineOutcome) :
    (executeTask s taskId o).2 = jobResult taskId o := by
  cases o <;> rfl

/-- The design invariant on one session. -/
def SessionInvariant (s : TeamSession) : Prop :=
  s.totalCost = sumCosts s.completedTasks ∧ s.totalUsage = foldUsage s.completedTasks

/-- A fresh session satisfies the invariant. -/
theorem newSession_invariant (id sessionName startTime workspace : String) :
    SessionInvariant (newSession id sessionName startTime workspace) :=
  ⟨rfl, rfl⟩

/-- One task execution preserves the invariant: on success both sides of
each equation grow by the same task; on failure nothing changes. -/
theorem executeTask_preserves_invariant (s : TeamSession) (taskId : String)
    (o : EngineOutcome) (h : SessionInvariant s) :
    SessionInvariant (executeTask s taskId o).1 := by
  obtain ⟨hc, hu⟩ := h
  cases o with
  | failure m => exact ⟨hc, hu⟩
  | success r u d =>
    constructor
    · show s.totalCost + (Option.getD (some (calculateCost u)) 0) =
        sumCosts (s.completedTasks ++ [_])
      simp [sumCosts, hc, List.map_append, List.sum_append]
    · show aggregateUsage s.totalUsage u = foldUsage (s.completedTasks ++ [_])
      simp [foldUsage, List.foldl_append, hu]

/-- The invariant over the whole live table. -/
def TableInvariant (tbl : SessionTable) : Prop :=
  ∀ sid s, tbl.get sid = some s → SessionInvariant s

/-- Writing an invariant-satisfying session preserves the table invariant. -/
theorem tableInvariant_set {tbl : SessionTable} {k : String} {v : TeamSession}
    (ht : TableInvariant tbl) (hv : SessionInvariant v) :
    TableInvariant (tbl.set k v) := by
  intro sid s hs
  by_cases hk : sid = k
  · subst hk
    rw [get_set_self] at hs
    cases hs
    exact hv
  · rw [get_set_ne _ _ _ _ hk] at hs
    exact ht sid s hs

/-- Deleting preserves the table invariant. -/
theorem tableInvariant_delete {tbl : SessionTable} {k : String}
    (ht : TableInvariant tbl) : TableInvariant (tbl.delete k) := by
  intro sid s hs
  by_cases hk : sid = k
  · subst hk
    rw [get_delete_self] at hs
    cases hs
  · rw [get_delete_ne _ _ _ hk] at hs
    exact ht sid s hs

/-- The parallel fold preserves the table invariant. -/
theorem parallelFold_preserves_invariant (sid : String)
    (jobs : List (String × EngineOutcome)) :
    ∀ (tbl : SessionTable) (acc : List TaskResult), TableInvariant tbl →
      TableInvariant (jobs.foldl (parallelStep sid) (tbl, acc)).1 := by
  induction jobs with
  | nil => intro tbl acc ht; exact ht
  | cons job rest ih =>
    intro tbl acc ht
    rw [List.foldl_cons]
    unfold parallelStep
    cases hg : SessionTable.get tbl sid with
    | none => exact ih tbl (acc ++ [_]) ht
    | some session =>
      exact ih _ _ (tableInvariant_set ht
        (executeTask_preserves_invariant _ _ _ (ht sid session hg)))

/-- Every table reachable by orchestrator operations satisfies the
invariant. -/
theorem reachable_tableInvariant {tbl : SessionTable} (h : ReachableTable tbl) :
    TableInvariant tbl := by
  induction h with
  | empty => intro sid s hs; cases hs
  | start sid sessionName startTime workspace hr ih =>
    exact tableInvariant_set ih (newSession_invariant _ _ _ _)
  | assign sid task member taskId outcome hr hok ih =>
    rename_i tblPre tblCur rid
    unfold assignTask at hok
    cases hg : SessionTable.get tblPre sid with
    | none => rw [hg] at hok; cases hok
    | some session =>
      rw [hg] at hok
      simp only [Except.ok.injEq, Prod.mk.injEq] at hok
      obtain ⟨htbl, -⟩ := hok
      subst htbl
      have hsess : SessionInvariant session := ih sid session hg
      have hsess1 : SessionInvariant { session with
          currentTasks := session.currentTasks ++ [{ task with assignedTo := some member.id }]
          activeMembers := session.activeMembers ++ [member.id] } := hsess
      exact tableInvariant_set (tableInvariant_set ih hsess1)
        (executeTask_preserves_invariant _ _ _ hsess1)
  | parallel sid jobs hr hok ih =>
    rename_i tblPre tblCur rs
    unfold executeParallelTasks at hok
    cases hg : SessionTable.get tblPre sid with
    | none => rw [hg] at hok; cases hok
    | some session =>
      rw [hg] at hok
      simp only [Except.ok.injEq, Prod.mk.injEq] at hok
      obtain ⟨-, htbl⟩ := hok
      subst htbl
      exact parallelFold_preserves_invariant sid jobs tblPre [] ih
  | ended sid hr hok ih =>
    rename_i tblPre tblCur
    unfold endSession at hok
    cases hg : SessionTable.get tblPre sid with
    | none => rw [hg] at hok; cases hok
    | some session =>
      rw [hg] at hok
      simp only [Except.ok.injEq] at hok
      subst hok
      exact tableInvariant_delete ih

/-- As long as the session is present, the parallel fold appends exactly one
result per job, in input order, and keeps the session present. -/
theorem parallelFold_results (sid : String) (jobs : List (String × EngineOutcome)) :
    ∀ (tbl : SessionTable) (acc : List TaskResult) (s : TeamSession),
      tbl.get sid = some s →
      (jobs.foldl (parallelStep sid) (tbl, acc)).2 =
        acc ++ jobs.map (fun j => jobResult j.1 j.2) := by
  induction jobs with
  | nil => intro tbl acc s h; simp
  | cons job rest ih =>
    intro tbl acc s h
    rw [List.foldl_cons]
    have hstep : parallelStep sid (tbl, acc) job =
        (tbl.set sid (executeTask s job.1 job.2).1, acc ++ [jobResult job.1 job.2]) := by
      unfold parallelStep
      simp only [h, executeTask_snd]
    rw [hstep]
    rw [ih _ _ _ (get_set_self tbl sid _)]
    simp

/-! ## Claim theorems: Task Orchestrator -/

/-- C2 (code bug evidence): when the engine (or directive construction)
raises an error, `executeTask` builds the failed `TaskResult` with the error
summary, but returns it without touching the session: `completedTasks` is
not extended and the completed-task count stays the same, contrary to the
design's append-on-failure requirement and the repository's own tests. -/
theorem executeTask_failure_drops_result (session : TeamSession) (taskId errMessage : String) :
    (executeTask session taskId (.failure errMessage)).1 = session ∧
    (executeTask session taskId (.failure errMessage)).2.status = .failed ∧
    (executeTask session taskId (.failure errMessage)).2.result =
      some ("Task failed: " ++ errMessage) ∧
    (executeTask session taskId (.failure errMessage)).1.completedTasks.length =
      session.completedTasks.length :=
  ⟨rfl, rfl, rfl, rfl⟩

/-- C4: in every session reachable by any sequence of orchestrator
operations, `totalCost` equals the sum of the `cost` fields over
`completedTasks` (missing cost counting as zero) and `totalUsage` equals the
additive fold of the completed tasks' usage. -/
theorem session_totals_invariant (tbl : SessionTable) (sid : String) (s : TeamSession)
    (h : ReachableTable tbl) (hg : tbl.get sid = some s) :
    s.totalCost = sumCosts s.completedTasks ∧ s.totalUsage = foldUsage s.completedTasks :=
  reachable_tableInvariant h sid s hg

/-- Witness for C4 at a concrete freshly-started session. -/
theorem session_totals_invariant_witness :
    ReachableTable (startTeamSession [] "s1" "alpha" "t0" "ws") ∧
    (startTeamSession [] "s1" "alpha" "t0" "ws").get "s1" =
      some (newSession "s1" "alpha" "t0" "ws") ∧
    ((newSession "s1" "alpha" "t0" "ws").totalCost =
        sumCosts (newSession "s1" "alpha" "t0" "ws").completedTasks ∧
      (newSession "s1" "alpha" "t0" "ws").totalUsage =
        foldUsage (newSession "s1" "alpha" "t0" "ws").completedTasks) :=
  ⟨ReachableTable.start "s1" "alpha" "t0" "ws" ReachableTable.empty, rfl,
    session_totals_invariant _ "s1" _
      (ReachableTable.start "s1" "alpha" "t0" "ws" ReachableTable.empty) rfl⟩

/-- C7: on a known session, the parallel entry point settles every submitted
job — one `TaskResult` per job, in input order — so a failure outcome for
one job never aborts its siblings, and the result list has exactly the
input length. -/
theorem parallel_results_ordered_and_isolated (tbl : SessionTable) (sid : String)
    (s : TeamSession) (jobs : List (String × EngineOutcome)) (h : tbl.get sid = some s) :
    (executeParallelTasks tbl sid jobs).map Prod.fst =
      Except.ok (jobs.map (fun j => jobResult j.1 j.2)) ∧
    (jobs.map (fun j => jobResult j.1 j.2)).length = jobs.length := by
  constructor
  · unfold executeParallelTasks
    rw [h]
    simp only [Except.map]
    rw [parallelFold_results sid jobs tbl [] s h]
    simp
  · exact List.length_map _ _

/-- Witness for C7: a two-job batch, one success and one engine failure. -/
theorem parallel_results_ordered_and_isolated_witness :
    ((startTeamSession [] "s1" "alpha" "t0" "ws").get "s1" =
      some (newSession "s1" "alpha" "t0" "ws")) ∧
    (executeParallelTasks (startTeamSession [] "s1" "alpha" "t0" "ws") "s1"
        [("t1", .success "ok" {} 5), ("t2", .failure "boom")]).map Prod.fst =
      Except.ok ([("t1", EngineOutcome.success "ok" {} 5),
        ("t2", EngineOutcome.failure "boom")].map (fun j => jobResult j.1 j.2)) ∧
    ([("t1", EngineOutcome.success "ok" {} 5),
        ("t2", EngineOutcome.failure "boom")].map (fun j => jobResult j.1 j.2)).length =
      [("t1", EngineOutcome.success "ok" {} 5),
        ("t2", EngineOutcome.failure "boom")].length :=
  ⟨rfl,
    (parallel_results_ordered_and_isolated (startTeamSession [] "s1" "alpha" "t0" "ws") "s1"
      (newSession "s1" "alpha" "t0" "ws")
      [("t1", .success "ok" {} 5), ("t2", .failure "boom")] rfl).1,
    (parallel_results_ordered_and_isolated (startTeamSession [] "s1" "alpha" "t0" "ws") "s1"
      (newSession "s1" "alpha" "t0" "ws")
      [("t1", .success "ok" {} 5), ("t2", .failure "boom")] rfl).2⟩

/-- C8: ending a live session evicts it — the status query reports not
found, and every subsequent `assignTask`, `executeParallelTasks` or
`endSession` on that identifier raises the session-not-found error. -/
theorem endSession_removes_session (tbl : SessionTable) (sid : String) (s : TeamSession)
    (h : tbl.get sid = some s) :
    endSession tbl sid = .ok (tbl.delete sid) ∧
    getSessionStatus (tbl.delete sid) sid = none ∧
    (∀ task member taskId outcome,
      assignTask (tbl.delete sid) sid task member taskId outcome =
        .error ("Session " ++ sid ++ " not found")) ∧
    (∀ jobs, executeParallelTasks (tbl.delete sid) sid jobs =
      .error ("Session " ++ sid ++ " not found")) ∧
    endSession (tbl.delete sid) sid = .error ("Session " ++ sid ++ " not found") := by
  have hd := get_delete_self tbl sid
  refine ⟨?_, hd, ?_, ?_, ?_⟩
  · unfold endSession; rw [h]
  · intro task member taskId outcome
    unfold assignTask; rw [hd]
  · intro jobs
    unfold executeParallelTasks; rw [hd]
  · unfold endSession; rw [hd]

/-- Witness for C8 on a concrete one-session table. -/
theorem endSession_removes_session_witness :
    endSession (startTeamSession [] "s1" "alpha" "t0" "ws") "s1" =
      .ok ((startTeamSession [] "s1" "alpha" "t0" "ws").delete "s1") ∧
    getSessionStatus ((startTeamSession [] "s1" "alpha" "t0" "ws").delete "s1") "s1" = none ∧
    assignTask ((startTeamSession [] "s1" "alpha" "t0" "ws").delete "s1") "s1"
        { type := .implementation, description := "d", priority := .medium }
        { id := "m1", name := "M", role := "dev", specialization := [],
          permissions := [], systemPrompt := "" }
        "t1" (.failure "x") =
      .error ("Session " ++ "s1" ++ " not found") ∧
    executeParallelTasks ((startTeamSession [] "s1" "alpha" "t0" "ws").delete "s1") "s1" [] =
      .error ("Session " ++ "s1" ++ " not found") ∧
    endSession ((startTeamSession [] "s1" "alpha" "t0" "ws").delete "s1") "s1" =
      .error ("Session " ++ "s1" ++ " not found") :=
  ⟨(endSession_removes_session (startTeamSession [] "s1" "alpha" "t0" "ws") "s1" (newSession "s1" "alpha" "t0" "ws") rfl).1,
    (endSession_removes_session (startTeamSession [] "s1" "alpha" "t0" "ws") "s1" (newSession "s1" "alpha" "t0" "ws") rfl).2.1,
    (endSession_removes_session (startTeamSession [] "s1" "alpha" "t0" "ws") "s1" (newSession "s1" "alpha" "t0" "ws") rfl).2.2.1 _ _ _ _,
    (endSession_removes_session (startTeamSession [] "s1" "alpha" "t0" "ws") "s1" (newSession "s1" "alpha" "t0" "ws") rfl).2.2.2.1 [],
    (endSession_removes_session (startTeamSession [] "s1" "alpha" "t0" "ws") "s1" (newSession "s1" "alpha" "t0" "ws") rfl).2.2.2.2⟩

/-! ## Claim theorems: Cost Aggregator -/

/-- A message whose identity is already recorded leaves the tracker
untouched and returns `null`, whatever its tag and payload. -/
theorem processMessage_of_mem (ct : CostTracker) (now : String) (m : Message)
    (h : m.id ∈ ct.processedMessageIds) : ct.processMessage now m = (ct, none) := by
  unfold CostTracker.processMessage
  split
  · rfl
  · split <;> simp [h]

/-- Characterization of `processMessage`: either a complete no-op returning
`null`, or a fresh recording of the message's usage. -/
theorem processMessage_cases (ct : CostTracker) (now : String) (m : Message) :
    ct.processMessage now m = (ct, none) ∨
    ∃ u, m.usage = some u ∧ m.id ∉ ct.processedMessageIds ∧
      ct.processMessage now m =
        ({ processedMessageIds := ct.processedMessageIds ++ [m.id]
           stepUsages := ct.stepUsages ++
             [{ messageId := m.id, timestamp := now, usage := u,
                costUSD := calculateCost u }] },
         some { messageId := m.id, timestamp := now, usage := u,
                costUSD := calculateCost u }) := by
  by_cases hty : m.type ≠ "assistant"
  · left
    unfold CostTracker.processMessage
    rw [if_pos hty]
  · rcases hu : m.usage with - | u
    · left
      unfold CostTracker.processMessage
      rw [if_neg hty, hu]
    · by_cases hmem : m.id ∈ ct.processedMessageIds
      · left
        unfold CostTracker.processMessage
        rw [if_neg hty, hu]
        simp [hmem]
      · right
        refine ⟨u, rfl, hmem, ?_⟩
        unfold CostTracker.processMessage
        rw [if_neg hty, hu]
        simp [hmem]

/-- C3: processing a message whose identity was already recorded by a
previous (recording) call is a no-op — it returns `null`, appends no ledger
entry, and leaves `getTotalCost` and `getTotalUsage` unchanged. -/
theorem duplicate_message_noop (ct : CostTracker) (now now2 : String) (m m2 : Message)
    (su : StepUsage) (h1 : (ct.processMessage now m).2 = some su) (h2 : m2.id = m.id) :
    (ct.processMessage now m).1.processMessage now2 m2 = ((ct.processMessage now m).1, none) ∧
    ((ct.processMessage now m).1.processMessage now2 m2).1.stepUsages =
      (ct.processMessage now m).1.stepUsages ∧
    ((ct.processMessage now m).1.processMessage now2 m2).1.getTotalCost =
      (ct.processMessage now m).1.getTotalCost ∧
    ((ct.processMessage now m).1.processMessage now2 m2).1.getTotalUsage =
      (ct.processMessage now m).1.getTotalUsage := by
  have hmem : m2.id ∈ (ct.processMessage now m).1.processedMessageIds := by
    rcases processMessage_cases ct now m with hc | ⟨u, hu, hnm, hc⟩
    · rw [hc] at h1; cases h1
    · rw [hc, h2]
      simp
  have hno := processMessage_of_mem _ now2 m2 hmem
  exact ⟨hno, by rw [hno], by rw [hno], by rw [hno]⟩

/-- Witness for C3: the same assistant message observed twice. -/
theorem duplicate_message_noop_witness :
    ((CostTracker.processMessage {} "t0"
        { type := "assistant", id := "m1", usage := some {} }).2 =
      some { messageId := "m1", timestamp := "t0", usage := {},
             costUSD := calculateCost {} }) ∧
    (CostTracker.processMessage {} "t0"
        { type := "assistant", id := "m1", usage := some {} }).1.processMessage "t1"
        { type := "assistant", id := "m1", usage := some {} } =
      ((CostTracker.processMessage {} "t0"
        { type := "assistant", id := "m1", usage := some {} }).1, none) :=
  ⟨rfl,
    (duplicate_message_noop {} "t0" "t1"
      { type := "assistant", id := "m1", usage := some {} }
      { type := "assistant", id := "m1", usage := some {} }
      { messageId := "m1", timestamp := "t0", usage := {}, costUSD := calculateCost {} }
      rfl rfl).1⟩

/-! ## Claim theorems: Policy Engine -/

/-- If some deny rule matches, the deny scan cannot report a clean miss. -/
theorem checkDenyRules_ne_ok_none (toolName : String) (input : Option InputObject)
    (l : List String) (h : ∃ r ∈ l, matchesRule r toolName input = .ok true) :
    checkDenyRules l toolName input ≠ .ok none := by
  induction l with
  | nil => obtain ⟨r, hr, -⟩ := h; cases hr
  | cons a rest ih =>
    obtain ⟨r, hr, hm⟩ := h
    rcases List.mem_cons.mp hr with rfl | hr2
    · intro hc
      unfold checkDenyRules at hc
      rw [hm] at hc
      cases hc
    · intro hc
      unfold checkDenyRules at hc
      cases hma : matchesRule a toolName input with
      | error e => rw [hma] at hc; cases hc
      | ok b =>
        cases b
        · rw [hma] at hc
          exact ih ⟨r, hr2, hm⟩ hc
        · rw [hma] at hc; cases hc

/-- Whenever the deny scan does not come back as a clean miss — a match or a
thrown error — the final verdict is `deny`. -/
theorem evaluatePermission_deny_of_check (rules : PermissionRules) (ctx : PermissionContext)
    (h : checkDenyRules rules.deny ctx.toolName ctx.input ≠ .ok none) :
    (evaluatePermission rules ctx).behavior = .deny := by
  unfold evaluatePermission evaluatePermissionBody
  cases hc : checkDenyRules rules.deny ctx.toolName ctx.input with
  | error e => simp [hc]
  | ok v =>
    cases v with
    | none => exact absurd hc h
    | some dm => simp [hc]

/-- C1: whenever some deny rule matches the (tool, input) pair, the verdict
is `deny` — deny rules are checked first, so they strictly dominate any
allow rule matching the same pair. -/
theorem deny_rules_dominate (rules : PermissionRules) (ctx : PermissionContext)
    (h : ∃ r ∈ rules.deny, matchesRule r ctx.toolName ctx.input = .ok true) :
    (evaluatePermission rules ctx).behavior = .deny :=
  evaluatePermission_deny_of_check rules ctx (checkDenyRules_ne_ok_none _ _ _ h)

/-- Witness for C1: the same rule sits in both the allow and the deny
bucket and matches; the verdict is still `deny`. -/
theorem deny_rules_dominate_witness :
    matchesRule "Bash(git push:*)" "Bash"
      (some { command := some "git push origin main" }) = .ok true ∧
    (evaluatePermission
      { allow := ["Bash(git push:*)"], deny := ["Bash(git push:*)"], ask := [] }
      { toolName := "Bash",
        input := some { command := some "git push origin main" } }).behavior = .deny :=
  ⟨rfl,
    deny_rules_dominate
      { allow := ["Bash(git push:*)"], deny := ["Bash(git push:*)"], ask := [] }
      { toolName := "Bash", input := some { command := some "git push origin main" } }
      ⟨"Bash(git push:*)", by simp, rfl⟩⟩

/-- C9: when no deny and no allow rule matches but some ask rule does, the
engine does not block: it returns `allow`, with a reason naming the matched
ask rule and flagging that confirmation would normally be asked — so the
decision is distinguishable from a plain allow. -/
theorem ask_rule_auto_allows (rules : PermissionRules) (ctx : PermissionContext)
    (askRule : String)
    (h1 : checkDenyRules rules.deny ctx.toolName ctx.input = .ok none)
    (h2 : checkAllowRules rules.allow ctx.toolName ctx.input = .ok none)
    (h3 : checkAskRules rules.ask ctx.toolName ctx.input = .ok (some askRule)) :
    evaluatePermission rules ctx =
      { behavior := .allow,
        message := some ("Tool approved (would normally ask): " ++ askRule) } := by
  unfold evaluatePermission evaluatePermissionBody
  rw [h1, h2, h3]

/-- Witness for C9: the design document's concrete scenario — a `git push`
command matching only the ask bucket. -/
theorem ask_rule_auto_allows_witness :
    (checkDenyRules ["Write(.env)"] "Bash"
      (some { command := some "git push origin main" }) = .ok none) ∧
    (checkAllowRules ["Read(*)"] "Bash"
      (some { command := some "git push origin main" }) = .ok none) ∧
    (checkAskRules ["Bash(git push:*)"] "Bash"
      (some { command := some "git push origin main" }) = .ok (some "Bash(git push:*)")) ∧
    evaluatePermission
      { allow := ["Read(*)"], deny := ["Write(.env)"], ask := ["Bash(git push:*)"] }
      { toolName := "Bash", input := some { command := some "git push origin main" } } =
      { behavior := .allow,
        message := some ("Tool approved (would normally ask): " ++ "Bash(git push:*)") } :=
  ⟨rfl, rfl, rfl,
    ask_rule_auto_allows
      { allow := ["Read(*)"], deny := ["Write(.env)"], ask := ["Bash(git push:*)"] }
      { toolName := "Bash", input := some { command := some "git push origin main" } }
      "Bash(git push:*)" rfl rfl rfl⟩

/-- C6: the evaluator never propagates a thrown error to the caller; it is a
total function, and whenever the evaluation body throws, the result is a
fail-safe `deny` whose reason carries the error message. -/
theorem evaluation_error_fails_safe (rules : PermissionRules) (ctx : PermissionContext)
    (e : String) (h : evaluatePermissionBody rules ctx = .error e) :
    evaluatePermission rules ctx =
      { behavior := .deny, message := some ("Permission evaluation error: " ++ e) } := by
  unfold evaluatePermission
  rw [h]

/-- Witness for C6: a null input makes the Bash matcher's property read
throw; the evaluator converts it into a deny with the error surfaced. -/
theorem evaluation_error_fails_safe_witness :
    (evaluatePermissionBody { allow := [], deny := ["Bash(x:*)"], ask := [] }
      { toolName := "Bash", input := none } = .error (nullReadError "command")) ∧
    evaluatePermission { allow := [], deny := ["Bash(x:*)"], ask := [] }
      { toolName := "Bash", input := none } =
      { behavior := .deny,
        message := some ("Permission evaluation error: " ++ nullReadError "command") } :=
  ⟨rfl,
    evaluation_error_fails_safe { allow := [], deny := ["Bash(x:*)"], ask := [] }
      { toolName := "Bash", input := none } (nullReadError "command") rfl⟩

/-- C10: a bare `*` rule (no parenthesised pattern) matches every request
whatever the tool and input; placed in the deny bucket it forces a `deny`
verdict on every evaluation. -/
theorem wildcard_rule_matches_all (rules : PermissionRules) (ctx : PermissionContext)
    (h : "*" ∈ rules.deny) :
    matchesRule "*" ctx.toolName ctx.input = .ok true ∧
    (evaluatePermission rules ctx).behavior = .deny := by
  have hm : matchesRule "*" ctx.toolName ctx.input = .ok true := by
    have hp : parseRule "*" = some ("*", none) := rfl
    unfold matchesRule
    rw [hp]
    simp
  exact ⟨hm, evaluatePermission_deny_of_check rules ctx
    (checkDenyRules_ne_ok_none _ _ _ ⟨"*", h, hm⟩)⟩

/-- Witness for C10: a deny bucket holding only `*` denies an unknown tool
with a null input. -/
theorem wildcard_rule_matches_all_witness :
    ("*" ∈ (["*"] : List String)) ∧
    matchesRule "*" "Whatever" none = .ok true ∧
    (evaluatePermission { allow := [], deny := ["*"], ask := [] }
      { toolName := "Whatever", input := none }).behavior = .deny :=
  ⟨by simp,
    (wildcard_rule_matches_all { allow := [], deny := ["*"], ask := [] }
      { toolName := "Whatever", input := none } (by simp)).1,
    (wildcard_rule_matches_all { allow := [], deny := ["*"], ask := [] }
      { toolName := "Whatever", input := none } (by simp)).2⟩

/-! ## Claim theorems: Bash prefix rules (C5) -/

/-- Bridge between the char-list prefix test and `List.IsPrefix`. -/
theorem listStartsWith_iff_isPre (pre s : List Char) :
    listStartsWith pre s = true ↔ pre <+: s := by
  induction pre generalizing s with
  | nil => simp [listStartsWith]
  | cons a as ih =>
    cases s with
    | nil => simp [listStartsWith]
    | cons b bs => simp [listStartsWith, List.cons_prefix_cons, ih]

/-- String-level version of the bridge. -/
theorem strStartsWith_iff_isPre (s pre : String) :
    strStartsWith s pre = true ↔ pre.toList <+: s.toList := by
  rw [strStartsWith, listStartsWith_iff_isPre]

/-- A pattern of the form `X:*` does end with the scope-marker-and-wildcard
suffix. -/
theorem strEndsWith_colonStar (x : String) : strEndsWith (x ++ ":*") ":*" = true := by
  unfold strEndsWith
  rw [show (x ++ ":*").toList = x.toList ++ [':', '*'] from rfl]
  rw [List.reverse_append]
  simp [listStartsWith]

/-- Dropping the two-character suffix of `X:*` recovers the literal `X`. -/
theorem strDropRight_colonStar (x : String) : strDropRight (x ++ ":*") 2 = x := by
  unfold strDropRight
  rw [show (x ++ ":*").toList = x.toList ++ [':', '*'] from rfl]
  rw [List.reverse_append]
  rw [show ([':', '*'] : List Char).reverse = ['*', ':'] from rfl]
  rw [show (['*', ':'] ++ x.toList.reverse).drop 2 = x.toList.reverse from rfl]
  rw [List.reverse_reverse]
  rfl

/-- C5 (counterexample to the claim as stated): for the prefix rule with
empty literal (`":*"`) and the empty command, the command does start with
the literal prefix, yet `matchesBashRule` reports no match — the matcher
rejects every empty command up front. -/
theorem bash_prefix_rule_counterexample :
    matchesBashRule (("" : String) ++ ":*") (some "") = false ∧
    (("" : String).toList <+: ("" : String).toList) :=
  ⟨rfl, List.prefix_refl _⟩

/-- C5 (amended): a Bash rule pattern `X:*` matches a command iff the
command is non-empty and starts with the literal prefix `X`; in particular a
command merely containing `X` at a non-initial position never matches. -/
theorem bash_prefix_rule_amended (x cmd : String) :
    matchesBashRule (x ++ ":*") (some cmd) = true ↔
      cmd ≠ "" ∧ x.toList <+: cmd.toList := by
  unfold matchesBashRule
  by_cases hc : cmd = ""
  · simp [hc]
  · simp [hc, strEndsWith_colonStar, strDropRight_colonStar, strStartsWith_iff_isPre]

end Spec2Proof
